import Mathlib

/-!
Verification of the luna moon-display core: a shallow embedding of the
geometry engine, rise/set locator, sky-path layout and label placement
from `loader/geometry.py` and `loader/luna/annotate.py`, with theorems
checking the natural-language specification against the code.

Real-valued trigonometry from the source is embedded over `ℝ`;
screen/layout arithmetic (done in Python floats on modest values) is
embedded over `ℚ` so that concrete evaluations are decidable.
-/

set_option autoImplicit false

namespace Luna

open Real

/-- Python's `%` operator on floats for a positive modulus `m`:
the remainder takes the sign of the divisor, i.e. `x - m * floor (x / m)`. -/
def pymodQ (x m : ℚ) : ℚ := x - m * ⌊x / m⌋

/-! ## Label placement (`loader/luna/annotate.py`, `_can_draw_text_at_azimuth`) -/

/-- The blocking condition tested for one occupied azimuth `caz` inside
`_can_draw_text_at_azimuth`: the ordinary interval test plus the two
wraparound corner cases. -/
def blocksAt (az delta caz : ℚ) : Prop :=
  (caz - delta < az ∧ az < caz + delta)
  ∨ (caz < delta ∧ pymodQ (caz - delta) 360 < az)
  ∨ (360 - caz < delta ∧ az < pymodQ (caz + delta) 360)

instance (az delta caz : ℚ) : Decidable (blocksAt az delta caz) := by
  unfold blocksAt; infer_instance

/-- `_can_draw_text_at_azimuth(az, delta, check_azs)`: true (drawable) iff no
occupied azimuth blocks `az`. -/
def can_draw_text_at_azimuth (az delta : ℚ) (check_azs : List ℚ) : Bool :=
  !(check_azs.any fun caz => decide (blocksAt az delta caz))

/-! ## Illumination color (`loader/luna/annotate.py`, `_color_for_illum`) -/

/-- `_color_for_illum(illum_pct)`: maps the illuminated percentage to a text
color, brighter moon giving a brighter color. -/
def color_for_illum (illum_pct : ℚ) : String :=
  if illum_pct ≤ 25 then "#bbb"
  else if illum_pct ≤ 50 then "#ccc"
  else if illum_pct ≤ 75 then "#ddd"
  else "#eee"

/-- Brightness rank of the four gray levels used by `color_for_illum`
(`#bbb` darkest, `#eee` brightest). -/
def colorBrightness (c : String) : ℕ :=
  if c = "#bbb" then 0
  else if c = "#ccc" then 1
  else if c = "#ddd" then 2
  else 3

/-! ## Altitude interpolation (`Annotate._lerp_altitude`) -/

/-- `Annotate.indicator_r`: radius of the altitude indicator dot. -/
def indicator_r : ℚ := 10

/-- `Annotate._lerp_altitude(altitude)`: interpolates an altitude into the
annulus between `azimuth_r1` and `azimuth_r2`, keeping the indicator dot
inside the annulus. -/
def lerp_altitude (azimuth_r1 azimuth_r2 altitude : ℚ) : ℚ :=
  let outer := azimuth_r2 - indicator_r
  let inner := azimuth_r1 + indicator_r
  (altitude / 90) * (outer - inner) + inner

/-! ## Bezier control points (`_interpolate_control_points`) -/

/-- A screen point, y positive downward. -/
abbrev Pt := ℚ × ℚ

/-- `_interpolate_control_points(points, k)`: each input point is kept, with a
control point interpolated before and after it along the line between its
neighbours; the first and last points are their own single control point.
The Python function asserts `len(points) > 2`; a shorter list is an
assertion failure, embedded as `none`. -/
def interpolate_control_points (points : List Pt) (k : ℚ) : Option (List Pt) :=
  if 2 < points.length then
    some ([points.headD 0, points.headD 0]
      ++ ((List.range (points.length - 2)).flatMap fun j =>
            let pp := points.getD j 0
            let p := points.getD (j + 1) 0
            let np := points.getD (j + 2) 0
            let dp : Pt := (np.1 - pp.1, np.2 - pp.2)
            [(p.1 - dp.1 * k, p.2 - dp.2 * k), p, (p.1 + dp.1 * k, p.2 + dp.2 * k)])
      ++ [points.getLastD 0, points.getLastD 0])
  else none

/-- The reference regression strength `k = 0.2` used by the drawing code. -/
def kRef : ℚ := 1/5

/-! ## Rise/set locator (`MoonGeometry.nearest_rise_and_set`)

Timestamps are rationals measured in days; the calendar date of an instant
is its floor.  The astral library is modelled as an abstract ephemeris
mapping a calendar date to an optional rise (resp. set) instant, the `none`
result standing for both astral's `None` returns and the `ValueError` the
code catches. -/

/-- The calendar date holding the instant `t`. -/
def dateOf (t : ℚ) : ℤ := ⌊t⌋

/-- The external ephemeris provider: `astral_moon.moonrise` /
`astral_moon.moonset` queried by calendar date (the code passes a datetime,
of which astral uses only the date). -/
structure Ephemeris where
  rise : ℤ → Option ℚ
  set : ℤ → Option ℚ

/-- Lines 120-135 of `geometry.py`: resolve the rise instant to display.
`moonUp` is the test `self.altitude > 0`.  A `none` result is the failed
`assert rise_dt is not None` (or an uncaught astral error on the retry). -/
def chosenRise (E : Ephemeris) (moonUp : Bool) (t : ℚ) : Option ℚ :=
  let rise0 := E.rise (dateOf t)
  if moonUp then
    -- Find the most-recent past moonrise, which may be yesterday.
    match rise0 with
    | none => E.rise (dateOf (t - 1))
    | some r => if r > t then E.rise (dateOf (t - 1)) else some r
  else
    -- Find the next moonrise, which may be tomorrow.
    match rise0 with
    | none => E.rise (dateOf (t + 1))
    | some r => if r < t then E.rise (dateOf (t + 1)) else some r

/-- Lines 137-146 of `geometry.py`: the following moonset, which might be
the day after moonrise `riseDt`. -/
def chosenSet (E : Ephemeris) (riseDt : ℚ) : Option ℚ :=
  match E.set (dateOf riseDt) with
  | none => E.set (dateOf (riseDt + 1))
  | some s => if s < riseDt then E.set (dateOf (riseDt + 1)) else some s

/-- `MoonGeometry.nearest_rise_and_set`, reduced to the displayed pair of
instants (the code then rebuilds `MoonGeometry` values at both instants). -/
def nearest_rise_and_set (E : Ephemeris) (moonUp : Bool) (t : ℚ) : Option (ℚ × ℚ) :=
  (chosenRise E moonUp t).bind fun riseDt =>
    (chosenSet E riseDt).map fun setDt => (riseDt, setDt)

/-- The provider contract assumed by the spec: a non-null rise or set
reported for a queried calendar date is an instant on that date. -/
def datesValid (E : Ephemeris) : Prop :=
  (∀ d r, E.rise d = some r → dateOf r = d) ∧ (∀ d s, E.set d = some s → dateOf s = d)

open Classical in
/-- Spec-side restatement (section 4.2, step 3) of the displayed-rise choice:
when the Moon is up, the date's rise is replaced by the previous date's rise
if it is null or occurs after `t`; when down, by the next date's rise if
null or occurring before `t`. -/
noncomputable def specDisplayedRise (E : Ephemeris) (moonUp : Bool) (t : ℚ) : Option ℚ :=
  if E.rise (dateOf t) = none
      ∨ (∃ r, E.rise (dateOf t) = some r ∧ (if moonUp then t < r else r < t)) then
    if moonUp then E.rise (dateOf t - 1) else E.rise (dateOf t + 1)
  else E.rise (dateOf t)

open Classical in
/-- Spec-side restatement (section 4.2, step 4) of the displayed-set choice:
the set on the chosen rise's date, unless null or falling before the rise,
in which case the set on the rise's date plus one day. -/
noncomputable def specDisplayedSet (E : Ephemeris) (riseDt : ℚ) : Option ℚ :=
  if E.set (dateOf riseDt) = none
      ∨ (∃ s, E.set (dateOf riseDt) = some s ∧ s < riseDt) then
    E.set (dateOf riseDt + 1)
  else E.set (dateOf riseDt)

/-! ## Geometry engine (`loader/geometry.py`, `MoonGeometry`)

The trigonometric pipeline is embedded over the exact reals.  Python's
`math.acos` raises `ValueError` outside `[-1, 1]` and float division by
zero raises `ZeroDivisionError`; both failure states are embedded as a
`none` azimuth. -/

noncomputable section

open Real

/-- `math.radians`. -/
def radiansD (n : ℝ) : ℝ := n * (π / 180)

/-- `math.degrees`. -/
def degreesD (r : ℝ) : ℝ := r * (180 / π)

/-- `dsin`: `math.sin` on a value in degrees. -/
def dsin (n : ℝ) : ℝ := Real.sin (radiansD n)

/-- `dcos`: `math.cos` on a value in degrees. -/
def dcos (n : ℝ) : ℝ := Real.cos (radiansD n)

/-- `dtan`: `math.tan` on a value in degrees. -/
def dtan (n : ℝ) : ℝ := Real.tan (radiansD n)

/-- Python's `%` on reals for a positive modulus. -/
def pymodR (x m : ℝ) : ℝ := x - m * ⌊x / m⌋

/-- The inputs of `MoonGeometry`.  The datetime `dt` enters the computation
only through `days_since_j2000(dt)` and `dt.hour + dt.minute / 60`, kept
here as the two real fields `days` and `timeHours`. -/
structure MoonGeometry where
  days : ℝ
  timeHours : ℝ
  latitude : ℝ
  longitude : ℝ
  moon_ra : ℝ
  moon_dec : ℝ

/-- `MoonGeometry.local_sidereal_time`, in degrees. -/
def local_sidereal_time (g : MoonGeometry) : ℝ :=
  pymodR (100.46 + 0.985647 * g.days + g.longitude + 15 * g.timeHours) 360

/-- `MoonGeometry.hour_angle`, in degrees. -/
def hour_angle (g : MoonGeometry) : ℝ :=
  pymodR (local_sidereal_time g - g.moon_ra * 15) 360

/-- `MoonGeometry.altitude`, in degrees. -/
def altitude (g : MoonGeometry) : ℝ :=
  degreesD (arcsin
    (dsin g.moon_dec * dsin g.latitude
      + dcos g.moon_dec * dcos g.latitude * dcos (hour_angle g)))

open Classical in
/-- `MoonGeometry.azimuth`, in degrees; `none` embeds the Python exceptions
(`ZeroDivisionError` when `cos(altitude) * cos(latitude)` is zero,
`ValueError` from `math.acos` when `cosaz` lies outside `[-1, 1]`). -/
def azimuth (g : MoonGeometry) : Option ℝ :=
  let alt := altitude g
  let denom := dcos alt * dcos g.latitude
  if denom = 0 then none
  else
    let cosaz := (dsin g.moon_dec - dsin alt * dsin g.latitude) / denom
    if cosaz < -1 ∨ 1 < cosaz then none
    else
      let az := degreesD (arccos cosaz)
      if dsin (hour_angle g) > 0 then some (360 - az) else some az

end

/-! ## Concrete instances used by witnesses and counterexamples -/

/-- A degenerate but contract-respecting provider: the rise and the set on
every date are both at the very start of that date. -/
def degenerateEph : Ephemeris :=
  ⟨fun d => some (d : ℚ), fun d => some (d : ℚ)⟩

/-- A family of concrete `MoonGeometry` inputs whose sidereal time works out
to 90 degrees (days since epoch 0, 06:00, longitude -100.46, right ascension
0), leaving latitude and declination free. -/
noncomputable def sampleGeom (lat dec : ℝ) : MoonGeometry :=
  ⟨0, 6, lat, -100.46, 0, dec⟩

/-- Declination 90 at the equator: the Moon is due north on the horizon with
a positive-sine hour angle. -/
noncomputable def gAz360 : MoonGeometry := sampleGeom 0 90

/-- Declination 90 at the north pole: the Moon is at the zenith. -/
noncomputable def gPole : MoonGeometry := sampleGeom 90 90

/-- An out-of-range latitude of 270 degrees, declination 90. -/
noncomputable def gInvalid : MoonGeometry := sampleGeom 270 90

/-! ## Theorems -/

/-- C3: for every azimuth, tolerance, and finite list of occupied azimuths,
the label-placement check returns drawable if and only if no occupied
azimuth satisfies the ordinary interval test or either of the two
wraparound corner cases. -/
theorem can_draw_iff_no_occupied_blocks (az delta : ℚ) (check_azs : List ℚ) :
    can_draw_text_at_azimuth az delta check_azs = true ↔
      ∀ caz ∈ check_azs,
        ¬((caz - delta < az ∧ az < caz + delta)
          ∨ (caz < delta ∧ pymodQ (caz - delta) 360 < az)
          ∨ (360 - caz < delta ∧ az < pymodQ (caz + delta) 360)) := by
  simp only [can_draw_text_at_azimuth, Bool.not_eq_true', List.any_eq_false,
    decide_eq_false_iff_not, decide_eq_true_eq, blocksAt]

/-- C4 counterexample: at azimuth 0 with tolerance 3 and occupied set {357}
the check reports drawable (true), not blocked as the spec states; 357 is
exactly the tolerance away from 0 across the wrap and all comparisons are
strict. -/
theorem can_draw_at_357_counterexample :
    can_draw_text_at_azimuth 0 3 [357] = true := by
  norm_num [can_draw_text_at_azimuth, blocksAt, pymodQ]

/-- C4 amended: at azimuth 0 with tolerance 3, the occupied set {357} leaves
the label drawable, {2} blocks it, and {10} leaves it drawable. -/
theorem can_draw_wraparound_values :
    can_draw_text_at_azimuth 0 3 [357] = true
    ∧ can_draw_text_at_azimuth 0 3 [2] = false
    ∧ can_draw_text_at_azimuth 0 3 [10] = true := by
  refine ⟨?_, ?_, ?_⟩ <;> norm_num [can_draw_text_at_azimuth, blocksAt, pymodQ]

/-- C8: the altitude-to-radius map sends 0 to the inner annulus edge plus the
dot radius, 90 to the outer edge minus the dot radius, 45 to their exact
midpoint, and is affine on all of `ℚ` (in particular the altitude is not
clamped to be nonnegative). -/
theorem lerp_altitude_endpoints_midpoint (azimuth_r1 azimuth_r2 : ℚ) :
    lerp_altitude azimuth_r1 azimuth_r2 0 = azimuth_r1 + indicator_r
    ∧ lerp_altitude azimuth_r1 azimuth_r2 90 = azimuth_r2 - indicator_r
    ∧ lerp_altitude azimuth_r1 azimuth_r2 45
        = (lerp_altitude azimuth_r1 azimuth_r2 0
            + lerp_altitude azimuth_r1 azimuth_r2 90) / 2
    ∧ ∀ a b : ℚ, lerp_altitude azimuth_r1 azimuth_r2 ((a + b) / 2)
        = (lerp_altitude azimuth_r1 azimuth_r2 a
            + lerp_altitude azimuth_r1 azimuth_r2 b) / 2 := by
  refine ⟨?_, ?_, ?_, fun a b => ?_⟩ <;>
    (unfold lerp_altitude indicator_r; ring)

/-- The brightness rank of the chosen color, as a function of the
illumination percentage. -/
theorem colorBrightness_color_for_illum (x : ℚ) :
    colorBrightness (color_for_illum x)
      = if x ≤ 25 then 0 else if x ≤ 50 then 1 else if x ≤ 75 then 2 else 3 := by
  unfold color_for_illum colorBrightness
  split_ifs <;> simp_all

/-- Which illumination percentages produce each of the four gray levels. -/
theorem color_for_illum_region_iff (x : ℚ) :
    (color_for_illum x = "#bbb" ↔ x ≤ 25)
    ∧ (color_for_illum x = "#ccc" ↔ 25 < x ∧ x ≤ 50)
    ∧ (color_for_illum x = "#ddd" ↔ 50 < x ∧ x ≤ 75)
    ∧ (color_for_illum x = "#eee" ↔ 75 < x) := by
  unfold color_for_illum
  split_ifs with h1 h2 h3 <;> refine ⟨?_, ?_, ?_, ?_⟩ <;> simp <;>
    (try constructor) <;> intros <;> linarith

/-- C10: on illumination percentages in [0, 100] the chosen color is monotone
nondecreasing in brightness, is always one of the four gray levels, and
switches exactly at the thresholds 25, 50 and 75, a threshold value taking
the darker color. -/
theorem color_for_illum_monotone (a b : ℚ)
    (ha : 0 ≤ a) (hab : a ≤ b) (hb : b ≤ 100) :
    colorBrightness (color_for_illum a) ≤ colorBrightness (color_for_illum b)
    ∧ (color_for_illum a = "#bbb" ∨ color_for_illum a = "#ccc"
        ∨ color_for_illum a = "#ddd" ∨ color_for_illum a = "#eee")
    ∧ (color_for_illum a = "#bbb" ↔ a ≤ 25)
    ∧ (color_for_illum a = "#ccc" ↔ 25 < a ∧ a ≤ 50)
    ∧ (color_for_illum a = "#ddd" ↔ 50 < a ∧ a ≤ 75)
    ∧ (color_for_illum a = "#eee" ↔ 75 < a) := by
  obtain ⟨h1, h2, h3, h4⟩ := color_for_illum_region_iff a
  refine ⟨?_, ?_, h1, h2, h3, h4⟩
  · rw [colorBrightness_color_for_illum, colorBrightness_color_for_illum]
    split_ifs <;> (try norm_num) <;> linarith
  · unfold color_for_illum
    split_ifs <;> simp

/-- C1: the displayed rise and set instants are chosen exactly as section
4.2 of the spec describes: the rise of `t`'s date, replaced by the previous
date's rise (Moon up, rise null or after `t`) or the next date's rise (Moon
down, rise null or before `t`); then the set on the chosen rise's date,
replaced by the set on the rise's date plus one day when null or before the
rise. -/
theorem nearest_rise_and_set_follows_spec (E : Ephemeris) (moonUp : Bool)
    (t riseDt : ℚ) :
    chosenRise E moonUp t = specDisplayedRise E moonUp t
    ∧ chosenSet E riseDt = specDisplayedSet E riseDt
    ∧ nearest_rise_and_set E moonUp t
        = (specDisplayedRise E moonUp t).bind fun r =>
            (specDisplayedSet E r).map fun s => (r, s) := by
  have hdate1 : ∀ x : ℚ, dateOf (x - 1) = dateOf x - 1 := by
    intro x; unfold dateOf; simpa using Int.floor_sub_int x 1
  have hdate2 : ∀ x : ℚ, dateOf (x + 1) = dateOf x + 1 := by
    intro x; unfold dateOf; simpa using Int.floor_add_int x 1
  have hrise : ∀ (u : Bool) (x : ℚ), chosenRise E u x = specDisplayedRise E u x := by
    intro u x
    cases hr : E.rise (dateOf x) with
    | none =>
      cases u <;>
        simp [chosenRise, specDisplayedRise, hr, hdate1, hdate2]
    | some r =>
      cases u with
      | false =>
        by_cases hc : r < x <;>
          simp [chosenRise, specDisplayedRise, hr, hc, hdate1, hdate2]
      | true =>
        by_cases hc : x < r <;>
          simp [chosenRise, specDisplayedRise, hr, hc, hdate1, hdate2]
  have hset : ∀ x : ℚ, chosenSet E x = specDisplayedSet E x := by
    intro x
    cases hs : E.set (dateOf x) with
    | none => simp [chosenSet, specDisplayedSet, hs, hdate2]
    | some s =>
      by_cases hc : s < x <;>
        simp [chosenSet, specDisplayedSet, hs, hc, hdate2]
  refine ⟨hrise moonUp t, hset riseDt, ?_⟩
  unfold nearest_rise_and_set
  rw [hrise moonUp t]
  have hfun : (fun r => (chosenSet E r).map fun s => (r, s))
      = fun r => (specDisplayedSet E r).map fun s => (r, s) := by
    funext r; rw [hset r]
  rw [hfun]

/-- C2 amended: under the provider contract that any rise or set returned for
a queried date lies on that date, every displayed pair satisfies
`rise ≤ set`; equality can occur only when the provider's set on the rise's
own date is exactly the rise instant (so in particular the re-queried
next-day set is always strictly after the rise). -/
theorem rise_le_set_of_datesValid (E : Ephemeris) (hE : datesValid E)
    (moonUp : Bool) (t riseDt setDt : ℚ)
    (h : nearest_rise_and_set E moonUp t = some (riseDt, setDt)) :
    riseDt ≤ setDt ∧ (riseDt = setDt → E.set (dateOf riseDt) = some riseDt) := by
  unfold nearest_rise_and_set at h
  rw [Option.bind_eq_some] at h
  obtain ⟨r, hcr, h⟩ := h
  rw [Option.map_eq_some'] at h
  obtain ⟨s, hcs, heq⟩ := h
  have hr : r = riseDt := congrArg Prod.fst heq
  have hs : s = setDt := congrArg Prod.snd heq
  rw [← hr, ← hs]
  have next_day_gt : ∀ s₁ : ℚ, E.set (dateOf (r + 1)) = some s₁ → r < s₁ := by
    intro s₁ h₁
    have hdate := hE.2 _ _ h₁
    have hfl : dateOf (r + 1) = ⌊r⌋ + 1 := by
      unfold dateOf; simpa using Int.floor_add_int r 1
    rw [hfl] at hdate
    unfold dateOf at hdate
    have h₂ : ((⌊r⌋ : ℚ) + 1 : ℚ) ≤ s₁ := by
      have hfle := Int.floor_le s₁
      rw [hdate] at hfle
      push_cast at hfle
      linarith
    have h₃ : r < (⌊r⌋ : ℚ) + 1 := Int.lt_floor_add_one r
    linarith
  unfold chosenSet at hcs
  cases h0 : E.set (dateOf r) with
  | none =>
    rw [h0] at hcs
    have := next_day_gt s hcs
    exact ⟨le_of_lt this, fun he => absurd he (by linarith)⟩
  | some s0 =>
    rw [h0] at hcs
    change (if s0 < r then E.set (dateOf (r + 1)) else some s0) = some s at hcs
    by_cases hlt : s0 < r
    · rw [if_pos hlt] at hcs
      have := next_day_gt s hcs
      exact ⟨le_of_lt this, fun he => absurd he (by linarith)⟩
    · rw [if_neg hlt] at hcs
      have hs0 : s0 = s := by simpa using hcs
      subst hs0
      exact ⟨le_of_not_lt hlt, fun he => by rw [he]⟩

/-- The degenerate provider meets the date contract. -/
theorem degenerateEph_datesValid : datesValid degenerateEph := by
  constructor <;> intro d x hx <;>
    (simp only [degenerateEph, Option.some_inj] at hx; subst hx;
     unfold dateOf; exact Int.floor_intCast d)

/-- The locator run on the degenerate provider at instant 0 (Moon down)
returns the pair (0, 0). -/
theorem degenerateEph_pair :
    nearest_rise_and_set degenerateEph false 0 = some (0, 0) := by
  have h0 : dateOf (0 : ℚ) = 0 := by unfold dateOf; norm_num
  unfold nearest_rise_and_set chosenRise chosenSet
  simp [degenerateEph, h0]

/-- C2 counterexample: with a provider meeting the date contract whose set
on date 0 equals its rise at instant 0, the displayed pair is (0, 0), so the
claimed strict ordering `rise.timestamp < set.timestamp` fails. -/
theorem rise_lt_set_counterexample :
    datesValid degenerateEph
    ∧ nearest_rise_and_set degenerateEph false 0 = some (0, 0)
    ∧ ¬((0 : ℚ) < (0 : ℚ)) :=
  ⟨degenerateEph_datesValid, degenerateEph_pair, by norm_num⟩

/-- C2 witness: the amended ordering facts instantiated on the degenerate
provider at instant 0. -/
theorem rise_le_set_witness :
    (0 : ℚ) ≤ (0 : ℚ)
    ∧ ((0 : ℚ) = (0 : ℚ) → degenerateEph.set (dateOf (0 : ℚ)) = some (0 : ℚ)) :=
  rise_le_set_of_datesValid degenerateEph degenerateEph_datesValid
    false 0 0 0 degenerateEph_pair

/-! ### List lemmas for the Bezier control-point pattern -/

theorem headD_eq_getD {α : Type} (l : List α) (d : α) : l.headD d = l.getD 0 d := by
  cases l <;> rfl

theorem getLastD_eq_getD {α : Type} :
    ∀ (l : List α) (d : α), l.getLastD d = l.getD (l.length - 1) d := by
  intro l
  induction l with
  | nil => intro d; rfl
  | cons a tl ih =>
    intro d
    cases tl with
    | nil => rfl
    | cons b tl2 =>
      have h1 : (a :: b :: tl2).getLastD d = (b :: tl2).getLastD a := by
        simp [List.getLastD]
      rw [h1, ih a]
      simp [List.getD_cons_succ]

theorem length_flatMap_of_triple {α : Type} :
    ∀ (ls : List ℕ) (f : ℕ → List α), (∀ j ∈ ls, (f j).length = 3) →
      (ls.flatMap f).length = 3 * ls.length := by
  intro ls
  induction ls with
  | nil => intro f _; simp
  | cons a tl ih =>
    intro f hf
    rw [List.flatMap_cons, List.length_append, hf a (by simp),
      ih f (fun j hj => hf j (by simp [hj])), List.length_cons]
    omega

theorem getD_flatMap_of_triple {α : Type} (d : α) :
    ∀ (ls : List ℕ) (f : ℕ → List α), (∀ j ∈ ls, (f j).length = 3) →
      ∀ q r, q < ls.length → r < 3 →
        (ls.flatMap f).getD (3 * q + r) d = (f (ls.getD q 0)).getD r d := by
  intro ls
  induction ls with
  | nil => intro f _ q r hq _; simp at hq
  | cons a tl ih =>
    intro f hf q r hq hr
    rw [List.flatMap_cons]
    cases q with
    | zero =>
      rw [List.getD_append]
      · simp [List.getD_cons_zero]
      · rw [hf a (by simp)]; omega
    | succ p =>
      rw [List.getD_append_right]
      · have hlen : (f a).length = 3 := hf a (by simp)
        rw [hlen]
        have harith : 3 * (p + 1) + r - 3 = 3 * p + r := by omega
        rw [harith, List.getD_cons_succ]
        exact ih f (fun j hj => hf j (by simp [hj])) p r (by simpa using hq) hr
      · rw [hf a (by simp)]; omega

theorem getD_range_self (m q : ℕ) (h : q < m) : (List.range m).getD q 0 = q := by
  rw [List.getD_eq_getElem _ _ (by simpa using h)]
  simp

/-- C7 amended: for every knot sequence of at least 3 points (the code
asserts `len(points) > 2`), the interpolation succeeds and returns exactly
`3 N - 2` points in the pattern knot 0, knot 0, ctrlA, knot, ctrlB, ...,
last knot, last knot, with the two control points of interior knot `i`
offset by `±k` times the vector from knot `i-1` to knot `i+1`. -/
theorem interpolate_control_points_pattern (points : List Pt) (k : ℚ)
    (h3 : 3 ≤ points.length) :
    ∃ out, interpolate_control_points points k = some out
      ∧ out.length = 3 * points.length - 2
      ∧ out.getD 0 0 = points.getD 0 0
      ∧ out.getD 1 0 = points.getD 0 0
      ∧ (∀ i, 1 ≤ i → i ≤ points.length - 2 →
          out.getD (3 * i - 1) 0
            = points.getD i 0 - k • (points.getD (i + 1) 0 - points.getD (i - 1) 0)
          ∧ out.getD (3 * i) 0 = points.getD i 0
          ∧ out.getD (3 * i + 1) 0
            = points.getD i 0 + k • (points.getD (i + 1) 0 - points.getD (i - 1) 0))
      ∧ out.getD (3 * points.length - 4) 0 = points.getD (points.length - 1) 0
      ∧ out.getD (3 * points.length - 3) 0 = points.getD (points.length - 1) 0 := by
  have h2 : 2 < points.length := by omega
  set n := points.length with hn
  set F : ℕ → List Pt := fun j =>
    [((points.getD (j + 1) 0).1 - ((points.getD (j + 2) 0).1 - (points.getD j 0).1) * k,
      (points.getD (j + 1) 0).2 - ((points.getD (j + 2) 0).2 - (points.getD j 0).2) * k),
     points.getD (j + 1) 0,
     ((points.getD (j + 1) 0).1 + ((points.getD (j + 2) 0).1 - (points.getD j 0).1) * k,
      (points.getD (j + 1) 0).2 + ((points.getD (j + 2) 0).2 - (points.getD j 0).2) * k)]
    with hFdef
  have hFlen : ∀ j ∈ List.range (n - 2), (F j).length = 3 := by
    intro j _; rfl
  have hbody : ((List.range (n - 2)).flatMap F).length = 3 * (n - 2) := by
    rw [length_flatMap_of_triple _ F hFlen, List.length_range]
  have hinterp : interpolate_control_points points k
      = some ([points.headD 0, points.headD 0]
          ++ ((List.range (n - 2)).flatMap F)
          ++ [points.getLastD 0, points.getLastD 0]) := by
    unfold interpolate_control_points
    rw [if_pos h2]
  have mid : ∀ q c, q < n - 2 → c < 3 →
      (([points.headD 0, points.headD 0]
          ++ ((List.range (n - 2)).flatMap F))
          ++ [points.getLastD 0, points.getLastD 0]).getD (2 + (3 * q + c)) 0
        = (F q).getD c 0 := by
    intro q c hq hc
    rw [List.append_assoc]
    rw [List.getD_append_right _ _ _ _ (by simp)]
    have hidx : 2 + (3 * q + c) - List.length [points.headD 0, points.headD 0]
        = 3 * q + c := by simp
    rw [hidx]
    rw [List.getD_append _ _ _ _ (by rw [hbody]; omega)]
    rw [getD_flatMap_of_triple 0 _ F hFlen q c (by simpa using hq) hc]
    rw [getD_range_self _ _ hq]
  refine ⟨_, hinterp, ?_, ?_, ?_, ?_, ?_, ?_⟩
  · rw [List.length_append, List.length_append, hbody]
    simp only [List.length_cons, List.length_nil]
    omega
  · rw [List.append_assoc, List.getD_append _ _ _ _ (by simp),
      List.getD_cons_zero, headD_eq_getD]
  · rw [List.append_assoc, List.getD_append _ _ _ _ (by simp),
      List.getD_cons_succ, List.getD_cons_zero, headD_eq_getD]
  · intro i hi1 hi2
    have e1 : i - 1 + 1 = i := by omega
    have e2 : i - 1 + 2 = i + 1 := by omega
    refine ⟨?_, ?_, ?_⟩
    · have hidxA : 3 * i - 1 = 2 + (3 * (i - 1) + 0) := by omega
      rw [hidxA, mid (i - 1) 0 (by omega) (by norm_num)]
      simp only [hFdef, List.getD_cons_zero, e1, e2]
      rw [Prod.ext_iff]
      constructor <;>
        simp only [Prod.fst_sub, Prod.snd_sub, Prod.smul_fst, Prod.smul_snd,
          smul_eq_mul] <;> ring
    · have hidxB : 3 * i = 2 + (3 * (i - 1) + 1) := by omega
      rw [hidxB, mid (i - 1) 1 (by omega) (by norm_num)]
      simp only [hFdef, List.getD_cons_succ, List.getD_cons_zero, e1]
    · have hidxC : 3 * i + 1 = 2 + (3 * (i - 1) + 2) := by omega
      rw [hidxC, mid (i - 1) 2 (by omega) (by norm_num)]
      simp only [hFdef, List.getD_cons_succ, List.getD_cons_zero, e1, e2]
      rw [Prod.ext_iff]
      constructor <;>
        simp only [Prod.fst_add, Prod.snd_add, Prod.fst_sub, Prod.snd_sub,
          Prod.smul_fst, Prod.smul_snd, smul_eq_mul] <;> ring
  · rw [List.append_assoc, List.getD_append_right _ _ _ _ (by simp; omega)]
    have hidx : 3 * n - 4 - List.length [points.headD 0, points.headD 0]
        = 3 * (n - 2) := by simp; omega
    rw [hidx, List.getD_append_right _ _ _ _ (by rw [hbody])]
    have hidx2 : 3 * (n - 2) - ((List.range (n - 2)).flatMap F).length = 0 := by
      rw [hbody]; omega
    rw [hidx2, List.getD_cons_zero, getLastD_eq_getD]
  · rw [List.append_assoc, List.getD_append_right _ _ _ _ (by simp; omega)]
    have hidx : 3 * n - 3 - List.length [points.headD 0, points.headD 0]
        = 3 * (n - 2) + 1 := by simp; omega
    rw [hidx, List.getD_append_right _ _ _ _ (by rw [hbody]; omega)]
    have hidx2 : 3 * (n - 2) + 1 - ((List.range (n - 2)).flatMap F).length = 1 := by
      rw [hbody]; omega
    rw [hidx2, List.getD_cons_succ, List.getD_cons_zero, getLastD_eq_getD]

/-- C7 counterexample: on a two-point knot list the code does not return a
4-point curve as the claim (N greater or equal to 2) would require; the
`assert len(points) > 2` fails, embedded as `none`. -/
theorem interpolate_two_knots_counterexample :
    interpolate_control_points [((0 : ℚ), (0 : ℚ)), ((1 : ℚ), (1 : ℚ))] kRef
      = none := by
  unfold interpolate_control_points
  norm_num

/-- C7 witness: the pattern theorem applied to a concrete three-knot list,
whose interpolation succeeds with 3 * 3 - 2 = 7 points. -/
theorem interpolate_control_points_pattern_witness :
    ∃ out, interpolate_control_points
        [((0 : ℚ), (0 : ℚ)), ((1 : ℚ), (0 : ℚ)), ((2 : ℚ), (2 : ℚ))] kRef
        = some out ∧ out.length = 7 := by
  obtain ⟨out, h1, h2, _⟩ := interpolate_control_points_pattern
    [((0 : ℚ), (0 : ℚ)), ((1 : ℚ), (0 : ℚ)), ((2 : ℚ), (2 : ℚ))] kRef (by norm_num)
  exact ⟨out, h1, by simpa using h2⟩

/-! ### Degree-trigonometry evaluation lemmas -/

theorem dsin_zero : dsin 0 = 0 := by
  unfold dsin radiansD; simp

theorem dcos_zero : dcos 0 = 1 := by
  unfold dcos radiansD; simp

theorem radiansD_ninety : radiansD 90 = π / 2 := by
  unfold radiansD; ring

theorem dsin_ninety : dsin 90 = 1 := by
  unfold dsin; rw [radiansD_ninety, Real.sin_pi_div_two]

theorem dcos_ninety : dcos 90 = 0 := by
  unfold dcos; rw [radiansD_ninety, Real.cos_pi_div_two]

theorem dcos_neg_ninety : dcos (-90) = 0 := by
  unfold dcos
  have h : radiansD (-90) = -(π / 2) := by unfold radiansD; ring
  rw [h, Real.cos_neg, Real.cos_pi_div_two]

theorem dsin_two_seventy : dsin 270 = -1 := by
  unfold dsin
  have h : radiansD 270 = π + π / 2 := by unfold radiansD; ring
  rw [h, Real.sin_add]
  simp

theorem degreesD_zero : degreesD 0 = 0 := by
  unfold degreesD; simp

theorem degreesD_pi_div_two : degreesD (π / 2) = 90 := by
  unfold degreesD
  have hπ : π ≠ 0 := Real.pi_ne_zero
  field_simp
  ring

theorem degreesD_neg_pi_div_two : degreesD (-(π / 2)) = -90 := by
  unfold degreesD
  have hπ : π ≠ 0 := Real.pi_ne_zero
  field_simp
  ring

theorem hour_angle_sampleGeom (lat dec : ℝ) :
    hour_angle (sampleGeom lat dec) = 90 := by
  unfold hour_angle local_sidereal_time pymodR sampleGeom
  norm_num

theorem altitude_sampleGeom (lat dec : ℝ) :
    altitude (sampleGeom lat dec) = degreesD (arcsin (dsin dec * dsin lat)) := by
  unfold altitude
  rw [hour_angle_sampleGeom, dcos_ninety]
  simp [sampleGeom]

theorem altitude_gAz360 : altitude gAz360 = 0 := by
  have h := altitude_sampleGeom 0 90
  rw [dsin_zero, mul_zero, Real.arcsin_zero, degreesD_zero] at h
  exact h

theorem altitude_gPole : altitude gPole = 90 := by
  have h := altitude_sampleGeom 90 90
  rw [dsin_ninety, mul_one, Real.arcsin_one, degreesD_pi_div_two] at h
  exact h

theorem altitude_gInvalid : altitude gInvalid = -90 := by
  have h := altitude_sampleGeom 270 90
  rw [dsin_ninety, dsin_two_seventy, mul_neg_one, Real.arcsin_neg_one,
    degreesD_neg_pi_div_two] at h
  exact h

theorem azimuth_gAz360 : azimuth gAz360 = some 360 := by
  have hha : hour_angle gAz360 = 90 := hour_angle_sampleGeom 0 90
  have hlat : gAz360.latitude = 0 := rfl
  have hdec : gAz360.moon_dec = 90 := rfl
  simp only [azimuth, altitude_gAz360, hha, hlat, hdec, dsin_zero, dcos_zero,
    dsin_ninety]
  norm_num [Real.arccos_one, degreesD_zero]

theorem azimuth_gPole : azimuth gPole = none := by
  have hlat : gPole.latitude = 90 := rfl
  simp only [azimuth, altitude_gPole, hlat, dcos_ninety]
  norm_num

/-- Every computed altitude lies in [-90, 90]: it is `degrees (arcsin x)`. -/
theorem altitude_mem_Icc (g : MoonGeometry) :
    altitude g ∈ Set.Icc (-90 : ℝ) 90 := by
  obtain ⟨h1, h2⟩ := Real.arcsin_mem_Icc
    (dsin g.moon_dec * dsin g.latitude
      + dcos g.moon_dec * dcos g.latitude * dcos (hour_angle g))
  have hpos : (0 : ℝ) < 180 / π := by positivity
  unfold altitude degreesD
  constructor
  · have hm := mul_le_mul_of_nonneg_right h1 (le_of_lt hpos)
    have he : -(π / 2) * (180 / π) = -90 := by
      field_simp; ring
    linarith
  · have hm := mul_le_mul_of_nonneg_right h2 (le_of_lt hpos)
    have he : (π / 2) * (180 / π) = 90 := by
      field_simp; ring
    linarith

/-- C5 amended: the altitude always lies in [-90, 90] and any successfully
computed azimuth lies in the closed interval [0, 360]; the right endpoint
360 is attained (see the counterexample), so the half-open interval claimed
by the spec is off by the single point 360. -/
theorem altitude_azimuth_bounds (g : MoonGeometry) :
    altitude g ∈ Set.Icc (-90 : ℝ) 90
    ∧ ∀ az : ℝ, azimuth g = some az → az ∈ Set.Icc (0 : ℝ) 360 := by
  refine ⟨altitude_mem_Icc g, fun az h => ?_⟩
  simp only [azimuth] at h
  split_ifs at h with h1 h2 h3 <;>
  first
    | exact Option.noConfusion h
    | {
      set cosaz := (dsin g.moon_dec - dsin (altitude g) * dsin g.latitude)
        / (dcos (altitude g) * dcos g.latitude) with hcz
      have h0 : 0 ≤ degreesD (arccos cosaz) := by
        unfold degreesD
        have hn := Real.arccos_nonneg cosaz
        positivity
      have h180 : degreesD (arccos cosaz) ≤ 180 := by
        unfold degreesD
        have harc := Real.arccos_le_pi cosaz
        have hpos : (0 : ℝ) < 180 / π := by positivity
        have hm := mul_le_mul_of_nonneg_right harc (le_of_lt hpos)
        have he : π * (180 / π) = 180 := by field_simp
        linarith
      have haz := Option.some_inj.mp h
      rw [Set.mem_Icc]
      constructor <;> simp only [← haz] <;> linarith
    }

/-- C5 counterexample: a concrete input (declination 90, positive-sine hour
angle, arccos evaluating to 0) on which the code returns the azimuth 360
exactly, which is outside the half-open interval [0, 360) claimed by the
spec. -/
theorem azimuth_attains_360_counterexample :
    azimuth gAz360 = some 360 ∧ (360 : ℝ) ∉ Set.Ico (0 : ℝ) 360 :=
  ⟨azimuth_gAz360, by simp⟩

/-- C5 witness: the bounds evaluated on the concrete input `gAz360`, whose
azimuth computes to 360. -/
theorem altitude_azimuth_bounds_witness :
    altitude gAz360 ∈ Set.Icc (-90 : ℝ) 90
    ∧ (360 : ℝ) ∈ Set.Icc (0 : ℝ) 360 :=
  ⟨(altitude_azimuth_bounds gAz360).1,
   (altitude_azimuth_bounds gAz360).2 360 azimuth_gAz360⟩

/-- C6 amended: the code does not clamp `cos_az`; at altitude exactly ±90
degrees the denominator `cos(altitude) * cos(latitude)` is zero and the
azimuth computation signals an error (Python `ZeroDivisionError`, embedded
as `none`) instead of returning a finite value. -/
theorem azimuth_none_at_pole (g : MoonGeometry)
    (h : altitude g = 90 ∨ altitude g = -90) : azimuth g = none := by
  have hc : dcos (altitude g) = 0 := by
    rcases h with h | h <;> rw [h]
    · exact dcos_ninety
    · exact dcos_neg_ninety
  simp only [azimuth]
  rw [hc, zero_mul, if_pos rfl]

/-- C6 counterexample: a concrete input at altitude exactly 90 degrees on
which the azimuth computation signals an error (`none`) rather than
returning a finite value as the spec claims. -/
theorem azimuth_pole_error_counterexample :
    altitude gPole = 90 ∧ azimuth gPole = none :=
  ⟨altitude_gPole, azimuth_gPole⟩

/-- C6 witness: the amended statement evaluated at the concrete zenith input
`gPole`. -/
theorem azimuth_none_at_pole_witness : azimuth gPole = none :=
  azimuth_none_at_pole gPole (Or.inl altitude_gPole)

/-- C9 amended: the code performs no input validation; for latitude or
longitude out of range the geometry is computed normally rather than the
input being rejected (the altitude is still produced, inside [-90, 90]). -/
theorem no_input_validation (g : MoonGeometry)
    (h : g.latitude < -90 ∨ 90 < g.latitude
      ∨ g.longitude < -180 ∨ 180 < g.longitude) :
    altitude g ∈ Set.Icc (-90 : ℝ) 90 :=
  altitude_mem_Icc g

/-- C9 counterexample: at the out-of-range latitude 270 the code computes a
normal altitude of -90 instead of rejecting the input. -/
theorem invalid_latitude_computes_counterexample :
    (90 : ℝ) < gInvalid.latitude ∧ altitude gInvalid = -90 :=
  ⟨by norm_num [gInvalid, sampleGeom], altitude_gInvalid⟩

/-- C9 witness: the no-validation statement evaluated at the concrete
out-of-range latitude 270. -/
theorem no_input_validation_witness :
    altitude gInvalid ∈ Set.Icc (-90 : ℝ) 90 :=
  no_input_validation gInvalid
    (Or.inr (Or.inl (by norm_num [gInvalid, sampleGeom])))

/-- C10 witness: the monotonicity and threshold facts evaluated at the
concrete pair of illumination percentages 10 and 90. -/
theorem color_for_illum_monotone_witness :
    colorBrightness (color_for_illum 10) ≤ colorBrightness (color_for_illum 90)
    ∧ (color_for_illum 10 = "#bbb" ∨ color_for_illum 10 = "#ccc"
        ∨ color_for_illum 10 = "#ddd" ∨ color_for_illum 10 = "#eee")
    ∧ (color_for_illum 10 = "#bbb" ↔ (10 : ℚ) ≤ 25)
    ∧ (color_for_illum 10 = "#ccc" ↔ 25 < (10 : ℚ) ∧ (10 : ℚ) ≤ 50)
    ∧ (color_for_illum 10 = "#ddd" ↔ 50 < (10 : ℚ) ∧ (10 : ℚ) ≤ 75)
    ∧ (color_for_illum 10 = "#eee" ↔ 75 < (10 : ℚ)) :=
  color_for_illum_monotone 10 90 (by norm_num) (by norm_num) (by norm_num)

end Luna


